import Mathlib

/-!
Verification of the record-update script `update_lot.py`.

The script loads a CSV table, selects rows whose `course_name` cell equals
a hardcoded target string, overwrites the `lecture_hours` and
`practical_hours` cells of those rows with hardcoded values, and writes the
whole table back to the same file.

We embed the table as a header (list of column names) plus a list of rows
(lists of cells), embed the pandas column lookup as first-occurrence index
search, the boolean-mask assignment as a row-wise conditional `List.set`,
and the whole script as a function on the file state (`Option Table`,
`none` meaning an unreadable / missing source) where an exception raised
before the final write leaves the file state untouched.  Following pandas
semantics for `.loc` setitem with a list of column labels (GH#38148), a
missing `lecture_hours` or `practical_hours` column does not raise: it is
silently appended, NaN-filled, and the enlarged table is written back;
only a missing `course_name` raises, from `df['course_name']`, before the
write.
-/

/-- A cell value: CSV values are textual on disk; in memory the script
compares the `course_name` cell to a string and assigns integers to the
two hour columns, so we distinguish string and integer cells.  `nan` is
the missing value pandas fills in when a `.loc` setitem enlarges the
frame with a column that was absent. -/
inductive Value where
  | str : String → Value
  | int : Int → Value
  | nan : Value
  deriving DecidableEq, Repr

/-- The in-memory table: an ordered header of column names and an ordered
list of rows, each row an ordered list of cells aligned with the header. -/
structure Table where
  cols : List String
  rows : List (List Value)
  deriving DecidableEq, Repr

/-- First-occurrence index of a column name in the header, `none` when the
column is absent.  This embeds pandas column lookup (`df['c']`, and the
column indexer of `df.loc`), which raises a KeyError when absent. -/
def colIdx (cols : List String) (c : String) : Option Nat :=
  match cols with
  | [] => none
  | x :: xs => if x = c then some 0 else (colIdx xs c).map (· + 1)

/-- The per-row effect of
`df.loc[df['course_name'] == target, ['lecture_hours', 'practical_hours']] = [lh, ph]`:
when the cell at the `course_name` index equals the target string the two
hour cells are overwritten, otherwise the row is left untouched. -/
def updateRow (iName iLec iPrac : Nat) (target : String) (lh ph : Int)
    (r : List Value) : List Value :=
  if r[iName]? = some (Value.str target)
  then (r.set iLec (Value.int lh)).set iPrac (Value.int ph)
  else r

/-- pandas `_ensure_listlike_indexer` (GH#38148): a `.loc` setitem whose
column indexer is a list of labels does not raise on a missing label;
it silently appends the missing column, filled with NaN, and returns the
(possibly enlarged) frame together with the label's column index. -/
def ensureColIdx (t : Table) (c : String) : Table × Nat :=
  match colIdx t.cols c with
  | some i => (t, i)
  | none => (⟨t.cols ++ [c], t.rows.map (fun r => r ++ [Value.nan])⟩,
             t.cols.length)

/-- The `.loc` setitem of line 7 once the boolean mask has been built:
ensure the two listed hour columns exist (enlarging the frame when one is
absent, in the order they appear in the indexer list), then apply the
conditional per-row overwrite. -/
def locSetHours (t : Table) (iName : Nat) (target : String) (lh ph : Int) :
    Table :=
  let p1 := ensureColIdx t "lecture_hours"
  let p2 := ensureColIdx p1.1 "practical_hours"
  ⟨p2.1.cols, p2.1.rows.map (updateRow iName p1.2 p2.2 target lh ph)⟩

/-- The update operation on the in-memory table (line 7 of the script,
parameterised as the spec's `update_course_hours`): `df['course_name']`
raises (the spec's SchemaError) when that column is missing; otherwise
the `.loc` setitem runs, enlarging the frame with any missing hour column
instead of raising, and overwriting the hour cells of matching rows. -/
def update_course_hours (t : Table) (target : String) (lh ph : Int) :
    Except String Table :=
  match colIdx t.cols "course_name" with
  | none => Except.error "SchemaError"
  | some iName => Except.ok (locSetHours t iName target lh ph)

/-- `pd.read_csv` on the file state: fails when the source is missing or
unparsable, otherwise yields the parsed table. -/
def read_csv (f : Option Table) : Except String Table :=
  match f with
  | none => Except.error "SourceNotFoundError"
  | some t => Except.ok t

/-- The whole script run against a file state: read the table (line 4),
apply the hardcoded update (line 7), and on success overwrite the same
file with the result (line 10).  An exception at the read or at the update
propagates before the write, leaving the file state unchanged.  Returns
the final file state and the script outcome. -/
def update_lot (f : Option Table) : Option Table × Except String Unit :=
  match read_csv f with
  | Except.error e => (f, Except.error e)
  | Except.ok df =>
    match update_course_hours df "Programming using C" 3 4 with
    | Except.error e => (f, Except.error e)
    | Except.ok df2 => (some df2, Except.ok ())

/-- The two-row table of the spec's concrete scenario. -/
def sampleTable : Table :=
  ⟨["course_name", "lecture_hours", "practical_hours"],
   [[Value.str "Programming using C", Value.int 2, Value.int 2],
    [Value.str "Calculus", Value.int 3, Value.int 0]]⟩

/-- The expected output table of the concrete scenario. -/
def sampleUpdated : Table :=
  ⟨["course_name", "lecture_hours", "practical_hours"],
   [[Value.str "Programming using C", Value.int 3, Value.int 4],
    [Value.str "Calculus", Value.int 3, Value.int 0]]⟩

/-- A table missing the `practical_hours` column, for the schema-error
scenario. -/
def sampleNoPrac : Table :=
  ⟨["course_name", "lecture_hours"],
   [[Value.str "Programming using C", Value.int 2]]⟩

/-- The table the script actually writes back for `sampleNoPrac`: the
missing `practical_hours` column is appended by the `.loc` enlargement and
the matching row gets the new hour values. -/
def sampleNoPracWritten : Table :=
  ⟨["course_name", "lecture_hours", "practical_hours"],
   [[Value.str "Programming using C", Value.int 3, Value.int 4]]⟩

/-- A table missing the `course_name` column, the one case in which the
script does raise before writing. -/
def sampleNoName : Table :=
  ⟨["lecture_hours", "practical_hours"],
   [[Value.int 2, Value.int 2]]⟩

/-- The first row of the scenario table. -/
def sampleRow0 : List Value :=
  [Value.str "Programming using C", Value.int 2, Value.int 2]

/-- The second row of the scenario table. -/
def sampleRow1 : List Value :=
  [Value.str "Calculus", Value.int 3, Value.int 0]

theorem colIdx_mem {cols : List String} {c : String} {i : Nat}
    (h : colIdx cols c = some i) : cols[i]? = some c := by
  induction cols generalizing i with
  | nil => simp [colIdx] at h
  | cons x xs ih =>
    by_cases hx : x = c
    · simp [colIdx, hx] at h
      subst h
      simp [hx]
    · simp [colIdx, hx] at h
      obtain ⟨j, hj, rfl⟩ := h
      simpa using ih hj

theorem colIdx_ne {cols : List String} {a b : String} {i j : Nat}
    (ha : colIdx cols a = some i) (hb : colIdx cols b = some j)
    (hab : a ≠ b) : i ≠ j := by
  intro hij
  subst hij
  have h1 := colIdx_mem ha
  have h2 := colIdx_mem hb
  rw [h1] at h2
  exact hab (Option.some.inj h2)

theorem colIdx_lt {cols : List String} {c : String} {i : Nat}
    (h : colIdx cols c = some i) : i < cols.length := by
  have := colIdx_mem h
  exact (List.getElem?_eq_some.mp this).1

theorem colIdx_append_of_some (l : List String) {cols : List String}
    {c : String} {i : Nat} (h : colIdx cols c = some i) :
    colIdx (cols ++ l) c = some i := by
  induction cols generalizing i with
  | nil => simp [colIdx] at h
  | cons x xs ih =>
    by_cases hx : x = c
    · simp [colIdx, hx] at h
      subst h
      simp [colIdx, hx]
    · simp only [colIdx, hx, if_false] at h
      obtain ⟨j, hj, rfl⟩ := Option.map_eq_some'.mp h
      show colIdx (x :: (xs ++ l)) c = some (j + 1)
      simp only [colIdx, hx, if_false, ih hj, Option.map_some']

theorem colIdx_append_self {cols : List String} {c : String}
    (h : colIdx cols c = none) :
    colIdx (cols ++ [c]) c = some cols.length := by
  induction cols with
  | nil => simp [colIdx]
  | cons x xs ih =>
    by_cases hx : x = c
    · simp [colIdx, hx] at h
    · simp only [colIdx, hx, if_false] at h
      have hxs : colIdx xs c = none := Option.map_eq_none'.mp h
      show colIdx (x :: (xs ++ [c])) c = some (xs.length + 1)
      simp only [colIdx, hx, if_false, ih hxs, Option.map_some']

theorem ensureColIdx_of_some {t : Table} {c : String} {i : Nat}
    (h : colIdx t.cols c = some i) : ensureColIdx t c = (t, i) := by
  unfold ensureColIdx
  rw [h]

theorem ensureColIdx_preserves {t : Table} {c d : String} {i : Nat}
    (h : colIdx t.cols d = some i) :
    colIdx (ensureColIdx t c).1.cols d = some i := by
  cases hc : colIdx t.cols c with
  | none =>
    simp only [ensureColIdx, hc]
    exact colIdx_append_of_some [c] h
  | some j =>
    simp only [ensureColIdx, hc]
    exact h

theorem ensureColIdx_found (t : Table) (c : String) :
    colIdx (ensureColIdx t c).1.cols c = some (ensureColIdx t c).2 := by
  cases hc : colIdx t.cols c with
  | none =>
    simp only [ensureColIdx, hc]
    exact colIdx_append_self hc
  | some i =>
    simp only [ensureColIdx, hc]

theorem locSetHours_present (t : Table) (iName : Nat) (target : String)
    (lh ph : Int) (iLec iPrac : Nat)
    (hL : colIdx t.cols "lecture_hours" = some iLec)
    (hP : colIdx t.cols "practical_hours" = some iPrac) :
    locSetHours t iName target lh ph =
      ⟨t.cols, t.rows.map (updateRow iName iLec iPrac target lh ph)⟩ := by
  simp only [locSetHours, ensureColIdx_of_some hL, ensureColIdx_of_some hP]

theorem locSetHours_course (t : Table) (iName : Nat) (target : String)
    (lh ph : Int) (hN : colIdx t.cols "course_name" = some iName) :
    colIdx (locSetHours t iName target lh ph).cols "course_name" =
      some iName := by
  show colIdx (ensureColIdx (ensureColIdx t "lecture_hours").1
      "practical_hours").1.cols "course_name" = some iName
  exact ensureColIdx_preserves (ensureColIdx_preserves hN)

theorem locSetHours_found (t : Table) (iName : Nat) (target : String)
    (lh ph : Int) :
    colIdx (locSetHours t iName target lh ph).cols "lecture_hours" =
      some (ensureColIdx t "lecture_hours").2 ∧
    colIdx (locSetHours t iName target lh ph).cols "practical_hours" =
      some (ensureColIdx (ensureColIdx t "lecture_hours").1
        "practical_hours").2 := by
  constructor
  · show colIdx (ensureColIdx (ensureColIdx t "lecture_hours").1
        "practical_hours").1.cols "lecture_hours" = _
    exact ensureColIdx_preserves (ensureColIdx_found t "lecture_hours")
  · show colIdx (ensureColIdx (ensureColIdx t "lecture_hours").1
        "practical_hours").1.cols "practical_hours" = _
    exact ensureColIdx_found _ "practical_hours"

/-- C1: On the two-row table [(Programming using C, 2, 2), (Calculus, 3, 0)],
updating "Programming using C" to lecture 3 / practical 4 yields exactly
[(Programming using C, 3, 4), (Calculus, 3, 0)]. -/
theorem concrete_scenario_ok :
    update_course_hours sampleTable "Programming using C" 3 4 =
      Except.ok sampleUpdated := by
  rfl

theorem update_ok (t : Table) (target : String) (lh ph : Int)
    (iName iLec iPrac : Nat)
    (hN : colIdx t.cols "course_name" = some iName)
    (hL : colIdx t.cols "lecture_hours" = some iLec)
    (hP : colIdx t.cols "practical_hours" = some iPrac) :
    update_course_hours t target lh ph =
      Except.ok ⟨t.cols, t.rows.map (updateRow iName iLec iPrac target lh ph)⟩ := by
  unfold update_course_hours
  rw [hN]
  show Except.ok (locSetHours t iName target lh ph) = _
  rw [locSetHours_present t iName target lh ph iLec iPrac hL hP]

theorem update_ok_inv (t : Table) (target : String) (lh ph : Int) (t2 : Table)
    (h : update_course_hours t target lh ph = Except.ok t2) :
    ∃ iName, colIdx t.cols "course_name" = some iName ∧
      t2 = locSetHours t iName target lh ph := by
  unfold update_course_hours at h
  cases hN : colIdx t.cols "course_name" with
  | none => rw [hN] at h; exact Except.noConfusion h
  | some iName =>
    rw [hN] at h
    exact ⟨iName, rfl, (Except.ok.inj h).symm⟩

/-- C2: On a successful update, a row whose `course_name` cell equals the
target exactly gets `lecture_hours = lh` and `practical_hours = ph`, every
other cell of it unchanged; a row whose `course_name` cell differs in any
way (case, whitespace, ...) is left entirely untouched. -/
theorem targeted_mutation (t : Table) (target : String) (lh ph : Int)
    (iName iLec iPrac : Nat)
    (hN : colIdx t.cols "course_name" = some iName)
    (hL : colIdx t.cols "lecture_hours" = some iLec)
    (hP : colIdx t.cols "practical_hours" = some iPrac)
    (t2 : Table) (h2 : update_course_hours t target lh ph = Except.ok t2)
    (i : Nat) (r : List Value) (hr : t.rows[i]? = some r)
    (hlen : r.length = t.cols.length) (j : Nat) :
    (r[iName]? = some (Value.str target) →
      (t2.rows[i]?.bind fun r2 => r2[iLec]?) = some (Value.int lh) ∧
      (t2.rows[i]?.bind fun r2 => r2[iPrac]?) = some (Value.int ph) ∧
      (j ≠ iLec → j ≠ iPrac → (t2.rows[i]?.bind fun r2 => r2[j]?) = r[j]?)) ∧
    (r[iName]? ≠ some (Value.str target) → t2.rows[i]? = some r) := by
  rw [update_ok t target lh ph iName iLec iPrac hN hL hP] at h2
  have ht2 := Except.ok.inj h2
  subst ht2
  have hrow : (Table.rows ⟨t.cols, t.rows.map (updateRow iName iLec iPrac target lh ph)⟩)[i]? =
      some (updateRow iName iLec iPrac target lh ph r) := by
    show (t.rows.map (updateRow iName iLec iPrac target lh ph))[i]? = _
    rw [List.getElem?_map, hr]
    rfl
  have hLP : iLec ≠ iPrac := colIdx_ne hL hP (by decide)
  have hLlt : iLec < r.length := hlen ▸ colIdx_lt hL
  have hPlt : iPrac < r.length := hlen ▸ colIdx_lt hP
  constructor
  · intro hm
    rw [hrow]
    unfold updateRow
    rw [if_pos hm]
    refine ⟨?_, ?_, ?_⟩
    · show ((r.set iLec (Value.int lh)).set iPrac (Value.int ph))[iLec]? = _
      rw [List.getElem?_set_ne (Ne.symm hLP)]
      exact List.getElem?_set_self (by simpa using hLlt)
    · show ((r.set iLec (Value.int lh)).set iPrac (Value.int ph))[iPrac]? = _
      exact List.getElem?_set_self (by simpa using hPlt)
    · intro hjL hjP
      show ((r.set iLec (Value.int lh)).set iPrac (Value.int ph))[j]? = _
      rw [List.getElem?_set_ne (Ne.symm hjP), List.getElem?_set_ne (Ne.symm hjL)]
  · intro hm
    rw [hrow]
    unfold updateRow
    rw [if_neg hm]

/-- C3: On a successful update, a row whose `course_name` cell does not
equal the target is byte-identical in the output table, at the same
position. -/
theorem selective_mutation (t : Table) (target : String) (lh ph : Int)
    (iName iLec iPrac : Nat)
    (hN : colIdx t.cols "course_name" = some iName)
    (hL : colIdx t.cols "lecture_hours" = some iLec)
    (hP : colIdx t.cols "practical_hours" = some iPrac)
    (t2 : Table) (h2 : update_course_hours t target lh ph = Except.ok t2)
    (i : Nat) (r : List Value) (hr : t.rows[i]? = some r)
    (hne : r[iName]? ≠ some (Value.str target)) :
    t2.rows[i]? = some r := by
  rw [update_ok t target lh ph iName iLec iPrac hN hL hP] at h2
  have ht2 := Except.ok.inj h2
  subst ht2
  show (t.rows.map (updateRow iName iLec iPrac target lh ph))[i]? = _
  rw [List.getElem?_map, hr]
  show some (updateRow iName iLec iPrac target lh ph r) = some r
  unfold updateRow
  rw [if_neg hne]

/-- C4: For a well-formed input table — one that, per the spec's
precondition, contains the required columns — a successful update
preserves the number of rows and the column list (hence the column set). -/
theorem row_count_columns_invariant (t : Table) (target : String)
    (lh ph : Int) (iLec iPrac : Nat)
    (hL : colIdx t.cols "lecture_hours" = some iLec)
    (hP : colIdx t.cols "practical_hours" = some iPrac)
    (t2 : Table)
    (h2 : update_course_hours t target lh ph = Except.ok t2) :
    t2.rows.length = t.rows.length ∧ t2.cols = t.cols := by
  obtain ⟨iName, hN, rfl⟩ := update_ok_inv t target lh ph t2 h2
  rw [locSetHours_present t iName target lh ph iLec iPrac hL hP]
  exact ⟨List.length_map t.rows (updateRow iName iLec iPrac target lh ph), rfl⟩

theorem updateRow_idem (iName iLec iPrac : Nat) (target : String)
    (lh ph : Int) (r : List Value)
    (hNL : iName ≠ iLec) (hNP : iName ≠ iPrac) (hLP : iLec ≠ iPrac) :
    updateRow iName iLec iPrac target lh ph
      (updateRow iName iLec iPrac target lh ph r) =
      updateRow iName iLec iPrac target lh ph r := by
  unfold updateRow
  by_cases hm : r[iName]? = some (Value.str target)
  · rw [if_pos hm]
    have hm2 : ((r.set iLec (Value.int lh)).set iPrac (Value.int ph))[iName]? =
        some (Value.str target) := by
      rw [List.getElem?_set_ne (Ne.symm hNP), List.getElem?_set_ne (Ne.symm hNL)]
      exact hm
    rw [if_pos hm2,
        List.set_comm (Value.int ph) (Value.int lh) _ (Ne.symm hLP),
        List.set_set, List.set_set]
  · rw [if_neg hm, if_neg hm]

/-- C5: The update is idempotent: if one run maps the table `t` to `t2`,
running the update again on `t2` with the same arguments yields `t2`. -/
theorem update_idempotent (t : Table) (target : String) (lh ph : Int)
    (t2 : Table)
    (h2 : update_course_hours t target lh ph = Except.ok t2) :
    update_course_hours t2 target lh ph = Except.ok t2 := by
  obtain ⟨iName, hN, rfl⟩ := update_ok_inv t target lh ph t2 h2
  have hN2 := locSetHours_course t iName target lh ph hN
  have hL2 := (locSetHours_found t iName target lh ph).1
  have hP2 := (locSetHours_found t iName target lh ph).2
  have hNL := colIdx_ne hN2 hL2 (by decide)
  have hNP := colIdx_ne hN2 hP2 (by decide)
  have hLP := colIdx_ne hL2 hP2 (by decide)
  rw [update_ok (locSetHours t iName target lh ph) target lh ph iName
        (ensureColIdx t "lecture_hours").2
        (ensureColIdx (ensureColIdx t "lecture_hours").1 "practical_hours").2
        hN2 hL2 hP2]
  have hrows : (locSetHours t iName target lh ph).rows.map
      (updateRow iName (ensureColIdx t "lecture_hours").2
        (ensureColIdx (ensureColIdx t "lecture_hours").1 "practical_hours").2
        target lh ph) = (locSetHours t iName target lh ph).rows := by
    show ((ensureColIdx (ensureColIdx t "lecture_hours").1
          "practical_hours").1.rows.map
        (updateRow iName (ensureColIdx t "lecture_hours").2
          (ensureColIdx (ensureColIdx t "lecture_hours").1
            "practical_hours").2 target lh ph)).map
        (updateRow iName (ensureColIdx t "lecture_hours").2
          (ensureColIdx (ensureColIdx t "lecture_hours").1
            "practical_hours").2 target lh ph) = _
    rw [List.map_map]
    have hf : updateRow iName (ensureColIdx t "lecture_hours").2
        (ensureColIdx (ensureColIdx t "lecture_hours").1
          "practical_hours").2 target lh ph ∘
        updateRow iName (ensureColIdx t "lecture_hours").2
          (ensureColIdx (ensureColIdx t "lecture_hours").1
            "practical_hours").2 target lh ph =
        updateRow iName (ensureColIdx t "lecture_hours").2
          (ensureColIdx (ensureColIdx t "lecture_hours").1
            "practical_hours").2 target lh ph :=
      funext fun r => updateRow_idem _ _ _ target lh ph r hNL hNP hLP
    rw [hf]
    rfl
  rw [hrows]

/-- C6: If no row's `course_name` cell equals the target and the table has
the required columns (the spec's precondition), a successful update
returns the input table unchanged: a no-op, not an error. -/
theorem no_match_noop (t : Table) (target : String) (lh ph : Int)
    (t2 : Table)
    (h2 : update_course_hours t target lh ph = Except.ok t2)
    (iName iLec iPrac : Nat)
    (hN : colIdx t.cols "course_name" = some iName)
    (hL : colIdx t.cols "lecture_hours" = some iLec)
    (hP : colIdx t.cols "practical_hours" = some iPrac)
    (hnm : ∀ r ∈ t.rows, r[iName]? ≠ some (Value.str target)) :
    t2 = t := by
  obtain ⟨iN, hN2, rfl⟩ := update_ok_inv t target lh ph t2 h2
  have hiN : iName = iN := Option.some.inj (hN.symm.trans hN2)
  subst hiN
  rw [locSetHours_present t iName target lh ph iLec iPrac hL hP]
  have hrows : t.rows.map (updateRow iName iLec iPrac target lh ph) = t.rows := by
    have hcongr : ∀ r ∈ t.rows,
        updateRow iName iLec iPrac target lh ph r = id r := by
      intro r hr
      unfold updateRow
      rw [if_neg (hnm r hr)]
      rfl
    rw [List.map_congr_left hcongr, List.map_id]
  rw [hrows]

/-- C7 counterexample: on the table missing `practical_hours` the script
neither raises nor leaves the file unmodified: the update succeeds, the
written-back table has the `practical_hours` column appended by the `.loc`
enlargement, and the file contents change. -/
theorem schema_error_counterexample :
    update_course_hours sampleNoPrac "Programming using C" 3 4 =
      Except.ok sampleNoPracWritten ∧
    update_lot (some sampleNoPrac) =
      (some sampleNoPracWritten, Except.ok ()) ∧
    sampleNoPracWritten ≠ sampleNoPrac :=
  ⟨rfl, rfl, by decide⟩

/-- C7 (amended): the operation fails with a SchemaError, leaving the file
unmodified, exactly when the `course_name` column is missing; a missing
`lecture_hours` or `practical_hours` column does not make it fail, because
the `.loc` setitem enlarges the table with the missing column instead of
raising, and the enlarged table is written back. -/
theorem schema_error_only_course_name (t : Table) (target : String)
    (lh ph : Int) :
    (update_course_hours t target lh ph = Except.error "SchemaError" ↔
      colIdx t.cols "course_name" = none) ∧
    (colIdx t.cols "course_name" = none →
      (update_lot (some t)).1 = some t) := by
  have herr : colIdx t.cols "course_name" = none →
      ∀ s : String, ∀ a b : Int,
        update_course_hours t s a b = Except.error "SchemaError" := by
    intro h s a b
    unfold update_course_hours
    rw [h]
  constructor
  · constructor
    · intro h
      cases hN : colIdx t.cols "course_name" with
      | none => rfl
      | some iName =>
        have hok : update_course_hours t target lh ph =
            Except.ok (locSetHours t iName target lh ph) := by
          unfold update_course_hours
          rw [hN]
        rw [hok] at h
        exact Except.noConfusion h
    · intro h
      exact herr h target lh ph
  · intro h
    have hred : update_lot (some t) =
        match update_course_hours t "Programming using C" 3 4 with
        | Except.error e => (some t, Except.error e)
        | Except.ok df2 => (some df2, Except.ok ()) := rfl
    rw [herr h "Programming using C" 3 4] at hred
    rw [hred]

/-- C8: A successful run writes the whole table back over the prior file
contents: the file state becomes exactly the updated table, whose column
list equals the input's, whose row count equals the input's, with every
input row position occupied in the output and unmatched rows carried over
verbatim at their original position. -/
theorem full_table_written (t : Table) (iName iLec iPrac : Nat)
    (hN : colIdx t.cols "course_name" = some iName)
    (hL : colIdx t.cols "lecture_hours" = some iLec)
    (hP : colIdx t.cols "practical_hours" = some iPrac)
    (t2 : Table)
    (h2 : update_course_hours t "Programming using C" 3 4 = Except.ok t2)
    (i : Nat) (r : List Value) (hr : t.rows[i]? = some r) :
    update_lot (some t) = (some t2, Except.ok ()) ∧
    t2.cols = t.cols ∧
    t2.rows.length = t.rows.length ∧
    (t2.rows[i]?).isSome = true ∧
    (r[iName]? ≠ some (Value.str "Programming using C") →
      t2.rows[i]? = some r) := by
  have hscript : update_lot (some t) = (some t2, Except.ok ()) := by
    have hred : update_lot (some t) =
        match update_course_hours t "Programming using C" 3 4 with
        | Except.error e => (some t, Except.error e)
        | Except.ok df2 => (some df2, Except.ok ()) := rfl
    rw [h2] at hred
    exact hred
  rw [update_ok t "Programming using C" 3 4 iName iLec iPrac hN hL hP] at h2
  have ht2 := Except.ok.inj h2
  subst ht2
  refine ⟨hscript, rfl, List.length_map _ _, ?_, ?_⟩
  · show ((t.rows.map (updateRow iName iLec iPrac "Programming using C" 3 4))[i]?).isSome = true
    rw [List.getElem?_map, hr]
    rfl
  · intro hne
    show (t.rows.map (updateRow iName iLec iPrac "Programming using C" 3 4))[i]? = some r
    rw [List.getElem?_map, hr]
    show some (updateRow iName iLec iPrac "Programming using C" 3 4 r) = some r
    unfold updateRow
    rw [if_neg hne]

/-- C9: If the read fails, the script fails before any write: the file
state is unchanged and the read error is surfaced. -/
theorem read_failure_no_write (f : Option Table) (e : String)
    (h : read_csv f = Except.error e) :
    (update_lot f).1 = f ∧ (update_lot f).2 = Except.error e := by
  unfold update_lot
  rw [h]
  exact ⟨rfl, rfl⟩

/-- C10: The script is deterministic: runs on identical file contents
produce identical results, with no hidden state between invocations. -/
theorem deterministic_runs (f g : Option Table) (h : f = g) :
    update_lot f = update_lot g :=
  congrArg update_lot h

theorem targeted_mutation_witness :
    ((sampleRow0[0]? = some (Value.str "Programming using C") →
      (sampleUpdated.rows[0]?.bind fun r2 => r2[1]?) = some (Value.int 3) ∧
      (sampleUpdated.rows[0]?.bind fun r2 => r2[2]?) = some (Value.int 4) ∧
      ((0 : Nat) ≠ 1 → (0 : Nat) ≠ 2 →
        (sampleUpdated.rows[0]?.bind fun r2 => r2[0]?) = sampleRow0[0]?)) ∧
    (sampleRow0[0]? ≠ some (Value.str "Programming using C") →
      sampleUpdated.rows[0]? = some sampleRow0)) :=
  targeted_mutation sampleTable "Programming using C" 3 4 0 1 2 rfl rfl rfl
    sampleUpdated rfl 0 sampleRow0 rfl rfl 0

theorem selective_mutation_witness :
    sampleUpdated.rows[1]? = some sampleRow1 :=
  selective_mutation sampleTable "Programming using C" 3 4 0 1 2 rfl rfl rfl
    sampleUpdated rfl 1 sampleRow1 rfl (by decide)

theorem row_count_columns_invariant_witness :
    sampleUpdated.rows.length = sampleTable.rows.length ∧
    sampleUpdated.cols = sampleTable.cols :=
  row_count_columns_invariant sampleTable "Programming using C" 3 4
    1 2 rfl rfl sampleUpdated rfl

theorem update_idempotent_witness :
    update_course_hours sampleUpdated "Programming using C" 3 4 =
      Except.ok sampleUpdated :=
  update_idempotent sampleTable "Programming using C" 3 4 sampleUpdated rfl

theorem no_match_noop_witness : sampleTable = sampleTable :=
  no_match_noop sampleTable "Data Structures" 3 4 sampleTable rfl 0 1 2
    rfl rfl rfl (by decide)

theorem schema_error_only_course_name_witness :
    (update_course_hours sampleNoName "Programming using C" 3 4 =
        Except.error "SchemaError" ↔
      colIdx sampleNoName.cols "course_name" = none) ∧
    (colIdx sampleNoName.cols "course_name" = none →
      (update_lot (some sampleNoName)).1 = some sampleNoName) :=
  schema_error_only_course_name sampleNoName "Programming using C" 3 4

theorem full_table_written_witness :
    update_lot (some sampleTable) = (some sampleUpdated, Except.ok ()) ∧
    sampleUpdated.cols = sampleTable.cols ∧
    sampleUpdated.rows.length = sampleTable.rows.length ∧
    (sampleUpdated.rows[1]?).isSome = true ∧
    (sampleRow1[0]? ≠ some (Value.str "Programming using C") →
      sampleUpdated.rows[1]? = some sampleRow1) :=
  full_table_written sampleTable 0 1 2 rfl rfl rfl sampleUpdated rfl
    1 sampleRow1 rfl

theorem read_failure_no_write_witness :
    (update_lot none).1 = none ∧
    (update_lot none).2 = Except.error "SourceNotFoundError" :=
  read_failure_no_write none "SourceNotFoundError" rfl

theorem deterministic_runs_witness :
    update_lot (some sampleTable) = update_lot (some sampleTable) :=
  deterministic_runs (some sampleTable) (some sampleTable) rfl
